import Mathlib

/-!
Verification of the local-episode detection and season-merge/split resolution
engine of the anitrack repository.

The development shallowly embeds the Rust sources:

* `anime/src/local/mod.rs` — episode matcher, single-file episode parsing and
  directory scanning (`EpisodeMatcher`, `Episode::parse`, `EpisodeList::parse`);
* `anup/src/series.rs` — `episode_matcher_with_pattern`;
* `anup/src/tui/component/main_panel/split_series/mod.rs` — season resolution
  (`MergedSeries::resolve`, `MergedSeries::resolve_merged_season`), split-action
  construction (`SplitAction::from_merged_seasons`) and execution
  (`ResolvedSeries::perform_split_actions`).

Strings are embedded as lists of Unicode scalar values (`List Ch`), so that the
regular-expression matching performed by the `regex` crate can be modelled by an
executable backtracking matcher with the crate's documented leftmost-first
(preference-order) semantics.  Fallible Rust functions become `Except`/`Option`
values; the filesystem touched by the split executor becomes an explicit state
record; the unbounded `while` loop of the season chain-walk becomes a
fuel-indexed step function where `none` means the fuel was exhausted.

Types of the repository's `anime` crate that are used by the split engine but
whose sources are not part of the snapshot (`SortedEpisodes`,
`CategorizedEpisodes`, the remote metadata record and its sequel accessors,
`SeriesPath`) are modelled from the specification; each such definition carries
a doc comment saying so.
-/

/-- A character, represented by its Unicode scalar value. -/
abbrev Ch := Nat

/-- The list of character codes of a string literal. -/
def chars (s : String) : List Ch := s.data.map Char.toNat

/-- Character classes occurring in the episode-matching patterns of the
repository: a literal character, `.` (any character except newline), `\d`
(a decimal digit; the ASCII range, which is exhaustive for the ASCII inputs
considered here) and `\s` (Unicode whitespace, the set documented for the
`regex` crate). -/
inductive CClass where
  | lit (c : Ch)
  | dot
  | digit
  | space
  deriving DecidableEq, Repr

/-- Whether a character belongs to a character class. -/
def CClass.matches : CClass → Ch → Bool
  | .lit c, x => x == c
  | .dot, x => x != 10
  | .digit, x => 48 ≤ x && x ≤ 57
  | .space, x =>
      x == 32 || x == 9 || x == 10 || x == 11 || x == 12 || x == 13 ||
      x == 133 || x == 160 || x == 5760 || (8192 ≤ x && x ≤ 8202) ||
      x == 8232 || x == 8233 || x == 8239 || x == 8287 || x == 12288

/-- Abstract syntax of the regular expressions used by the repository's episode
patterns: empty, a character class, concatenation, alternation (the left
alternative is preferred), greedy `*`, lazy `*?`, and a named capture group
`(?P<name>...)`. -/
inductive Rx where
  | eps
  | cls (c : CClass)
  | seq (a b : Rx)
  | alt (a b : Rx)
  | starG (r : Rx)
  | starL (r : Rx)
  | group (name : String) (r : Rx)
  deriving DecidableEq, Repr

/-- Greedy `+`: one occurrence followed by a greedy star. -/
def Rx.plusG (r : Rx) : Rx := .seq r (.starG r)

/-- Lazy `+?`: one occurrence followed by a lazy star. -/
def Rx.plusL (r : Rx) : Rx := .seq r (.starL r)

/-- Greedy `?`: prefers matching `r` over matching nothing. -/
def Rx.optG (r : Rx) : Rx := .alt r .eps

/-- A sequence of literal characters. -/
def Rx.str (s : List Ch) : Rx := s.foldr (fun c acc => .seq (.cls (.lit c)) acc) .eps

/-- Named-group captures recorded during a match; a later capture of the same
name is prepended, and lookup returns the most recent one. -/
abbrev Caps := List (String × List Ch)

/-- Lookup of a named capture group, as `Captures::name` of the `regex` crate. -/
def capsFind (caps : Caps) (n : String) : Option (List Ch) :=
  (caps.find? (fun p => p.1 == n)).map (fun p => p.2)

/-- Backtracking matcher in continuation-passing style, implementing the
leftmost-first (preference-order) match semantics documented for the `regex`
crate: alternation prefers its left branch, greedy repetition prefers longer
matches, lazy repetition prefers shorter ones, and the first success in that
order is returned.  Repetition refuses to iterate on an empty body match.  The
`fuel` argument makes the recursion structural; it only bounds the nesting
depth of the search, and every use below supplies more than enough. -/
def Rx.run : Nat → Rx → List Ch → Caps → (List Ch → Caps → Option Caps) → Option Caps
  | 0, _, _, _, _ => none
  | fuel + 1, r, s, caps, k =>
    match r with
    | .eps => k s caps
    | .cls c =>
      match s with
      | [] => none
      | x :: s' => if c.matches x then k s' caps else none
    | .seq a b => Rx.run fuel a s caps (fun s' caps' => Rx.run fuel b s' caps' k)
    | .alt a b =>
      match Rx.run fuel a s caps k with
      | some res => some res
      | none => Rx.run fuel b s caps k
    | .group name r' =>
      Rx.run fuel r' s caps
        (fun s' caps' => k s' ((name, s.take (s.length - s'.length)) :: caps'))
    | .starG r' =>
      match Rx.run fuel r' s caps
          (fun s' caps' =>
            if s'.length < s.length then Rx.run fuel (.starG r') s' caps' k else none) with
      | some res => some res
      | none => k s caps
    | .starL r' =>
      match k s caps with
      | some res => some res
      | none =>
        Rx.run fuel r' s caps
          (fun s' caps' =>
            if s'.length < s.length then Rx.run fuel (.starL r') s' caps' k else none)

/-- Structural size of a regular expression, used to pick a sufficient fuel. -/
def Rx.size : Rx → Nat
  | .eps => 1
  | .cls _ => 1
  | .seq a b => a.size + b.size + 1
  | .alt a b => a.size + b.size + 1
  | .starG r => r.size + 1
  | .starL r => r.size + 1
  | .group _ r => r.size + 1

/-- Match a regular expression against the input starting at its first
character, returning the recorded captures of the preferred match. -/
def Rx.matchAt (r : Rx) (s : List Ch) : Option Caps :=
  Rx.run ((s.length + 2) * (r.size + 2)) r s [] (fun _ caps => some caps)

/-- Unanchored search, as `Regex::captures`: the match starting at the leftmost
possible position is returned. -/
def Rx.search (r : Rx) : List Ch → Option Caps
  | [] => r.matchAt []
  | c :: t =>
    match r.matchAt (c :: t) with
    | some caps => some caps
    | none => Rx.search r t

/-- Right-nested concatenation of a list of regular expressions. -/
def Rx.cat (rs : List Rx) : Rx := rs.foldr .seq .eps

/-- A single literal character. -/
def lchar (c : Char) : Rx := .cls (.lit c.toNat)

/-- Preference-ordered alternation of three alternatives. -/
def Rx.alt3 (a b c : Rx) : Rx := .alt a (.alt b c)

/-- `EpisodeMatcher::DEFAULT_PATTERN` (anime/src/local/mod.rs line 27), the
regular expression
`(?:\[.+?\](?:_+|\.+|\s*))?(?P<title>.+)(?:\s*|_*|\.*)(?:-|\.|_).*?(?P<episode>\d+)(?:\s*?\(|\s*?\[|\.mkv|\.mp4|\.avi)`
translated constructor by constructor into the abstract syntax above. -/
def DEFAULT_PATTERN : Rx :=
  Rx.cat [
    Rx.optG (Rx.cat [lchar '[', Rx.plusL (.cls .dot), lchar ']',
      Rx.alt3 (Rx.plusG (lchar '_')) (Rx.plusG (lchar '.')) (Rx.starG (.cls .space))]),
    Rx.group "title" (Rx.plusG (.cls .dot)),
    Rx.alt3 (Rx.starG (.cls .space)) (Rx.starG (lchar '_')) (Rx.starG (lchar '.')),
    Rx.alt3 (lchar '-') (lchar '.') (lchar '_'),
    Rx.starL (.cls .dot),
    Rx.group "episode" (Rx.plusG (.cls .digit)),
    Rx.alt (Rx.seq (Rx.starL (.cls .space)) (lchar '('))
      (Rx.alt (Rx.seq (Rx.starL (.cls .space)) (lchar '['))
        (Rx.alt (Rx.str (chars ".mkv"))
          (Rx.alt (Rx.str (chars ".mp4")) (Rx.str (chars ".avi")))))]

/-- Errors of the `anime` crate's local module (the `err` snafu variants used by
`local/mod.rs`), plus the regex-compilation failure.  Error context values keep
just the fields the code attaches. -/
inductive AErr where
  | NoEpMatches (name : List Ch)
  | NoEpisodeTitle (name : List Ch)
  | ExpectedEpNumber (name : List Ch)
  | MissingCustomMatcherGroup (group : String)
  | RegexBuild (pattern : List Ch)
  | MultipleTitles (expecting found : List Ch)
  | NoEpisodes (path : List Ch)
  deriving DecidableEq, Repr

/-- `EpisodeMatcher` (anime/src/local/mod.rs line 13): an optional compiled
pattern; `None` stands for the default matcher. -/
structure EpisodeMatcher where
  pattern : Option Rx
  deriving DecidableEq, Repr

/-- `EpisodeMatcher::get` (anime/src/local/mod.rs lines 85-95): the stored
pattern, or the compiled `DEFAULT_PATTERN` when none was supplied. -/
def EpisodeMatcher.get (m : EpisodeMatcher) : Rx := m.pattern.getD DEFAULT_PATTERN

/-- Substring test, as Rust's `str::contains` with a string pattern: true iff
`pat` occurs contiguously in the haystack (an empty pattern always occurs). -/
def containsSub (pat : List Ch) : List Ch → Bool
  | [] => pat.isEmpty
  | c :: t => pat.isPrefixOf (c :: t) || containsSub pat t

/-- `EpisodeMatcher::from_pattern` (anime/src/local/mod.rs lines 51-69).  The
two `ensure!` checks for the literal named-group markers run first; only then is
the pattern handed to the regular-expression compiler.  `Regex::new` belongs to
the external `regex` crate and is abstracted as the `compile` argument, `none`
standing for a compilation failure. -/
def EpisodeMatcher.from_pattern (compile : List Ch → Option Rx) (pattern : List Ch) :
    Except AErr EpisodeMatcher :=
  if containsSub (chars "(?P<title>") pattern then
    if containsSub (chars "(?P<episode>") pattern then
      match compile pattern with
      | some rx => .ok ⟨some rx⟩
      | none => .error (.RegexBuild pattern)
    else .error (.MissingCustomMatcherGroup "episode")
  else .error (.MissingCustomMatcherGroup "title")

/-- Whitespace test used by `str::trim` (Rust `char::is_whitespace`, the same
Unicode White_Space set as the `\s` class). -/
def isSpaceCh (c : Ch) : Bool := CClass.space.matches c

/-- Rust `str::trim`: remove whitespace from both ends. -/
def trim (s : List Ch) : List Ch :=
  ((s.dropWhile isSpaceCh).reverse.dropWhile isSpaceCh).reverse

/-- ASCII decimal digit test. -/
def isDigitCh (c : Ch) : Bool := 48 ≤ c && c ≤ 57

/-- Numeric value of a digit string (most significant first). -/
def digitsToNat (s : List Ch) : Nat := s.foldl (fun a c => a * 10 + (c - 48)) 0

/-- Rust `str::parse::<u32>`: an optional leading `+`, then one or more ASCII
digits, with the value required to fit in 32 bits; anything else is an error,
modelled as `none`. -/
def parseU32 (s : List Ch) : Option Nat :=
  let t := if s.head? = some 43 then s.tail else s
  if t.isEmpty then none
  else if t.all isDigitCh then
    if digitsToNat t < 4294967296 then some (digitsToNat t) else none
  else none

/-- `Episode` (anime/src/local/mod.rs lines 168-171): the parsed title and
episode number of one file. -/
structure Episode where
  name : List Ch
  num : Nat
  deriving DecidableEq, Repr

/-- `Episode::parse` (anime/src/local/mod.rs lines 174-197): run the matcher's
regex over the filename; a missing match, a missing `title` group, or an
`episode` group that does not parse as a `u32` each produce the corresponding
error.  As in the source, the error for a bad episode number carries the
already-trimmed title (the `name` binding is shadowed). -/
def Episode.parse (matcher : EpisodeMatcher) (name : List Ch) : Except AErr Episode :=
  match Rx.search matcher.get name with
  | none => .error (.NoEpMatches name)
  | some caps =>
    match capsFind caps "title" with
    | none => .error (.NoEpisodeTitle name)
    | some t =>
      let tname := trim t
      match (capsFind caps "episode").bind parseU32 with
      | none => .error (.ExpectedEpNumber tname)
      | some n => .ok ⟨tname, n⟩

/-- A directory entry as seen by `EpisodeList::parse`: its file name and
whether it is a subdirectory.  The enumeration already happened; entry-level
I/O errors are outside the model.  The path stored for an episode is identified
with the entry's file name. -/
structure DirEntry where
  fname : List Ch
  isDir : Bool
  deriving DecidableEq, Repr

/-- `EpisodeList` (anime/src/local/mod.rs lines 200-204): the single title of a
directory and its episode-number → path mapping.  The `HashMap` is modelled as
an association list on which insertion overwrites the previous binding. -/
structure EpisodeList where
  title : List Ch
  paths : List (Nat × List Ch)
  deriving DecidableEq, Repr

/-- `HashMap::insert`: bind `k` to `v`, dropping any previous binding of `k`. -/
def insertPath (m : List (Nat × List Ch)) (k : Nat) (v : List Ch) : List (Nat × List Ch) :=
  (k, v) :: m.filter (fun q => q.1 ≠ k)

/-- Whether `EpisodeList::parse` skips this entry without parsing it: it is a
subdirectory, or its name ends with the `.part` download-in-progress marker
(anime/src/local/mod.rs lines 221-231). -/
def skipEntry (e : DirEntry) : Bool := e.isDir || (chars ".part").isSuffixOf e.fname

/-- The entry loop of `EpisodeList::parse` (anime/src/local/mod.rs lines
217-249), with the running optional expected title and the mapping built so
far: skipped entries are passed over; any parse failure aborts; a parsed title
different from the expected one aborts with `MultipleTitles`; otherwise the
episode is inserted and the loop continues. -/
def scanEntries (matcher : EpisodeMatcher) :
    Option (List Ch) → List (Nat × List Ch) → List DirEntry →
    Except AErr (Option (List Ch) × List (Nat × List Ch))
  | title?, paths, [] => .ok (title?, paths)
  | title?, paths, e :: rest =>
    if skipEntry e then scanEntries matcher title? paths rest
    else
      match Episode.parse matcher e.fname with
      | .error err => .error err
      | .ok ep =>
        match title? with
        | some t =>
          if t = ep.name then scanEntries matcher (some t) (insertPath paths ep.num e.fname) rest
          else .error (.MultipleTitles t ep.name)
        | none => scanEntries matcher (some ep.name) (insertPath paths ep.num e.fname) rest

/-- `EpisodeList::parse` (anime/src/local/mod.rs lines 207-254) over the listed
entries of `dir`: run the entry loop; if no file parsed, fail with
`NoEpisodes`, otherwise return the title and the mapping. -/
def EpisodeList.parse (matcher : EpisodeMatcher) (dir : List Ch) (entries : List DirEntry) :
    Except AErr EpisodeList :=
  match scanEntries matcher none [] entries with
  | .error e => .error e
  | .ok (none, _) => .error (.NoEpisodes dir)
  | .ok (some t, paths) => .ok ⟨t, paths⟩

/-- Errors of the `anup` crate relevant here (anup/src/series.rs): the
specialised missing-group error, or a passed-through `anime` error. -/
inductive AnupErr where
  | MissingEpisodeMatcherGroup (group : String)
  | Anime (e : AErr)
  deriving DecidableEq, Repr

/-- One pass of Rust `str::replace` counted in remaining characters, so that the
recursion is structural: at each position, if the (non-empty) pattern starts
here, emit the replacement and jump over the pattern, else keep the character.
Matches Rust's leftmost non-overlapping replacement. -/
def replaceAllGo (pat sub : List Ch) : Nat → List Ch → List Ch
  | 0, s => s
  | n + 1, s =>
    match s with
    | [] => []
    | c :: rest =>
      if pat ≠ [] ∧ pat.isPrefixOf (c :: rest) then
        sub ++ replaceAllGo pat sub n (List.drop pat.length (c :: rest))
      else c :: replaceAllGo pat sub n rest

/-- Rust `str::replace` for a non-empty pattern (both call sites below use
non-empty patterns; an empty pattern is left uninterpreted and returns the
input). -/
def replaceAll (pat sub s : List Ch) : List Ch := replaceAllGo pat sub s.length s

/-- The placeholder substitution performed by `episode_matcher_with_pattern`
(anup/src/series.rs lines 296-299): `{title}` becomes the title named capture
and then `{episode}` becomes the episode named capture. -/
def substitutedPattern (pattern : List Ch) : List Ch :=
  replaceAll (chars "{episode}") (chars "(?P<episode>\\d+)")
    (replaceAll (chars "{title}") (chars "(?P<title>.+)") pattern)

/-- `episode_matcher_with_pattern` (anup/src/series.rs lines 292-310):
substitute the placeholder tokens, build the matcher, and rewrap a
missing-group error into the crate's more specific variant. -/
def episode_matcher_with_pattern (compile : List Ch → Option Rx) (pattern : List Ch) :
    Except AnupErr EpisodeMatcher :=
  match EpisodeMatcher.from_pattern compile (substitutedPattern pattern) with
  | .ok m => .ok m
  | .error (.MissingCustomMatcherGroup g) => .error (.MissingEpisodeMatcherGroup g)
  | .error e => .error (.Anime e)

/-- Modelled from the spec: the category/kind tags of the `anime` crate's
`SeriesKind` (glossary: "season", "movie", "special", plus the remaining remote
kinds); the crate's definition is not part of the snapshot. -/
inductive SeriesKind where
  | Season
  | Movie
  | Special
  | OVA
  | ONA
  | Music
  deriving DecidableEq, Repr

/-- Modelled from the spec: a sequel reference of the remote metadata, carrying
at least an id and a kind (spec §3, RemoteSeriesMetadata). -/
structure Sequel where
  id : Nat
  kind : SeriesKind
  deriving DecidableEq, Repr

/-- Modelled from the spec: remote series metadata (spec §3): id, preferred
title (the `title.preferred` field used for output names), episode count and
the sequel references.  The sequel mapping is modelled as a list searched in
order. -/
structure RemoteInfo where
  id : Nat
  preferredTitle : List Ch
  episodes : Nat
  sequels : List Sequel
  deriving DecidableEq, Repr

/-- Modelled from the spec: `sequel_by_kind` — the remote sequel whose kind
matches the given category (spec §4.3 step 2). -/
def RemoteInfo.sequel_by_kind (i : RemoteInfo) (k : SeriesKind) : Option Sequel :=
  i.sequels.find? (fun s => s.kind == k)

/-- Modelled from the spec: `direct_sequel` — the accessor that yields the
season-kind sequel specifically (spec §3 and §6). -/
def RemoteInfo.direct_sequel (i : RemoteInfo) : Option Sequel :=
  i.sequel_by_kind .Season

/-- Modelled from the spec: one locally present episode of the newer `anime`
crate's episode record, with its number and original file name (spec §3,
SortedEpisodes / SplitAction). -/
structure LocalEpisode where
  number : Nat
  filename : List Ch
  deriving DecidableEq, Repr

/-- Modelled from the spec: `SortedEpisodes` — an ordered sequence of episodes
by number, supporting point lookup and a highest-number query (spec §3). -/
abbrev SortedEpisodes := List LocalEpisode

/-- Modelled from the spec: point lookup by episode number. -/
def SortedEpisodes.find (eps : SortedEpisodes) (n : Nat) : Option LocalEpisode :=
  eps.find? (fun e => e.number == n)

/-- Modelled from the spec: the highest episode number present. -/
def SortedEpisodes.highest_episode_number (eps : SortedEpisodes) : Nat :=
  eps.foldl (fun a e => max a e.number) 0

/-- Modelled from the spec: `CategorizedEpisodes` — the category-tag →
sorted-episodes mapping produced by the scanning collaborator (spec §3),
iterated in list order (the order of the underlying hash map is arbitrary). -/
abbrev CategorizedEpisodes := List (SeriesKind × SortedEpisodes)

/-- Modelled from the spec: a series directory path (anup's `SeriesPath`). -/
abbrev SeriesPath := List Ch

/-- Modelled from the spec: the configuration, reduced to the root directory
against which series paths are made absolute. -/
structure Config where
  seriesDir : List Ch
  deriving DecidableEq, Repr

/-- Path concatenation with a separator. -/
def joinPath (a b : List Ch) : List Ch := a ++ 47 :: b

/-- Modelled from the spec: `SeriesPath::absolute` — the path resolved against
the configured series directory. -/
def SeriesPath.absolute (p : SeriesPath) (config : Config) : List Ch :=
  joinPath config.seriesDir p

/-- Modelled from the spec: `SeriesPath::new` — the (relative) output directory
named by the given path. -/
def SeriesPath.new (p : List Ch) (_config : Config) : SeriesPath := p

/-- `SplitAction` (split_series/mod.rs lines 381-384): one old-name → new-name
link instruction. -/
structure SplitAction where
  old_name : List Ch
  new_name : List Ch
  deriving DecidableEq, Repr

/-- Rust `Path::extension` on a bare file name (no separators): `none` when the
name contains no dot or when its only dot is the leading character; otherwise
the portion after the final dot (possibly empty). -/
def fileExtension (fname : List Ch) : Option (List Ch) :=
  let r := fname.reverse
  if r.contains 46 then
    let ext := (r.takeWhile (fun c => c ≠ 46)).reverse
    if fname.length = ext.length + 1 then none else some ext
  else none

/-- Decimal digits of a number, most significant first. -/
def natDigits (n : Nat) : List Ch := (Nat.repr n).data.map Char.toNat

/-- Rust `{:02}` formatting: pad with `0` to a width of at least two. -/
def pad2 (n : Nat) : List Ch := if n < 10 then 48 :: natDigits n else natDigits n

/-- The new file name built by `SplitAction::from_merged_seasons` (split_series/
mod.rs lines 414-424): preferred title, `" - "`, the zero-padded season-relative
number, and the original extension with its leading dot (or nothing). -/
def splitNewName (info : RemoteInfo) (realNum offset : Nat) (ep : LocalEpisode) : List Ch :=
  info.preferredTitle ++ chars " - " ++ pad2 (realNum - offset) ++
    (match fileExtension ep.filename with
     | none => []
     | some e => 46 :: e)

/-- The body of the `for real_ep_num in sequel_start..=sequel_end` loop of
`SplitAction::from_merged_seasons` (split_series/mod.rs lines 408-429): numbers
absent from the local set are passed over, present ones append one action. -/
def fromMergedLoop (info : RemoteInfo) (episodes : SortedEpisodes) (offset : Nat) :
    List Nat → List SplitAction → List SplitAction
  | [], acc => acc
  | realNum :: rest, acc =>
    match episodes.find realNum with
    | none => fromMergedLoop info episodes offset rest acc
    | some ep =>
      fromMergedLoop info episodes offset rest
        (acc ++ [⟨ep.filename, splitNewName info realNum offset ep⟩])

/-- `SplitAction::from_merged_seasons` (split_series/mod.rs lines 398-432): walk
the real episode numbers from `offset + 1` through `offset + info.episodes`. -/
def SplitAction.from_merged_seasons (info : RemoteInfo) (episodes : SortedEpisodes)
    (offset : Nat) : List SplitAction :=
  fromMergedLoop info episodes offset (List.range' (offset + 1) info.episodes) []

/-- `ResolvedSeries` (split_series/mod.rs lines 313-318). -/
structure ResolvedSeries where
  info : RemoteInfo
  base_dir : SeriesPath
  out_dir : SeriesPath
  actions : List SplitAction
  deriving DecidableEq, Repr

/-- `ResolvedSeries::new` (split_series/mod.rs lines 321-338): compute the
actions for the given offset and name the output directory after the preferred
title. -/
def ResolvedSeries.new (info : RemoteInfo) (base_dir : SeriesPath)
    (episodes : SortedEpisodes) (offset : Nat) (config : Config) : ResolvedSeries :=
  { info := info
    base_dir := base_dir
    out_dir := SeriesPath.new info.preferredTitle config
    actions := SplitAction.from_merged_seasons info episodes offset }

/-- The I/O error kinds distinguished by the split executor: the tolerated
`AlreadyExists`, and any other creation failure (represented by
`PermissionDenied`). -/
inductive IoErrorKind where
  | AlreadyExists
  | PermissionDenied
  deriving DecidableEq, Repr

/-- The filesystem state seen by the split executor: the set of existing paths,
the symlinks created so far (link path paired with its target), and the paths
whose creation the system would refuse with a non-`AlreadyExists` error. -/
structure FS where
  paths : List (List Ch)
  links : List (List Ch × List Ch)
  denied : List (List Ch)
  deriving DecidableEq, Repr

/-- Path-existence test (`Path::exists`). -/
abbrev FS.pathExists (fs : FS) (p : List Ch) : Prop := p ∈ fs.paths

/-- `fs::create_dir_all`: fails on a denied path, otherwise records the
directory. -/
def FS.createDirAll (fs : FS) (p : List Ch) : Option FS :=
  if p ∈ fs.denied then none
  else some { fs with paths := p :: fs.paths }

/-- `std::os::unix::fs::symlink src dst`: fails with `AlreadyExists` when the
link path already exists, with another error when it is denied, and otherwise
records the link. -/
def FS.symlink (fs : FS) (src dst : List Ch) : Except IoErrorKind FS :=
  if dst ∈ fs.paths then .error .AlreadyExists
  else if dst ∈ fs.denied then .error .PermissionDenied
  else .ok { fs with paths := dst :: fs.paths, links := (dst, src) :: fs.links }

/-- Errors of `ResolvedSeries::perform_split_actions`: directory creation (with
the path), or a fatal symlink failure reporting the source path, the
destination path and the underlying cause. -/
inductive SplitErr where
  | dirCreation (path : List Ch)
  | symlinkFailed (fromPath toPath : List Ch) (cause : IoErrorKind)
  deriving DecidableEq, Repr

/-- The action loop of `perform_split_actions` (split_series/mod.rs lines
359-375): symlink each action; an `AlreadyExists` failure is skipped, any other
failure aborts with the full report, and no later action is attempted. -/
def symlinkLoop (base_dir out_dir : List Ch) : List SplitAction → FS → Except SplitErr FS
  | [], fs => .ok fs
  | a :: rest, fs =>
    let from_path := joinPath base_dir a.old_name
    let to_path := joinPath out_dir a.new_name
    match fs.symlink from_path to_path with
    | .ok fs' => symlinkLoop base_dir out_dir rest fs'
    | .error .AlreadyExists => symlinkLoop base_dir out_dir rest fs
    | .error e => .error (.symlinkFailed from_path to_path e)

/-- `ResolvedSeries::perform_split_actions` (split_series/mod.rs lines
340-378): succeed immediately with no actions; otherwise ensure the base and
output directories exist (a failed creation is fatal with the path attached)
and run the action loop. -/
def ResolvedSeries.perform_split_actions (r : ResolvedSeries) (config : Config) (fs : FS) :
    Except SplitErr FS :=
  if r.actions.isEmpty then .ok fs
  else
    let base_dir := r.base_dir.absolute config
    match (if fs.pathExists base_dir then some fs else fs.createDirAll base_dir) with
    | none => .error (.dirCreation base_dir)
    | some fs1 =>
      let out_dir := r.out_dir.absolute config
      match (if fs1.pathExists out_dir then some fs1 else fs1.createDirAll out_dir) with
      | none => .error (.dirCreation out_dir)
      | some fs2 => symlinkLoop base_dir out_dir r.actions fs2

/-- `MergedSeries` (split_series/mod.rs lines 185-188): one outcome per sequel
category examined. -/
inductive MergedSeries where
  | Resolved (r : ResolvedSeries)
  | Failed (kind : SeriesKind)
  deriving DecidableEq, Repr

/-- The `while let Some(sequel) = info.direct_sequel()` loop of
`MergedSeries::resolve_merged_season` (split_series/mod.rs lines 266-292),
driven by a fuel; `none` means the fuel ran out before the loop finished.  A
failed lookup pushes `Failed` and — as in the source, whose `continue` does not
advance `info` — re-enters the loop with the same `info`, so the same sequel is
fetched again.  A successful lookup pushes a `Resolved` entry built with the
current offset, adds the fetched episode count to the offset, and stops when
the offset exceeds the highest local number or the chain ends. -/
def mergedSeasonWalk (remote : Nat → Option RemoteInfo) (base_path : SeriesPath)
    (episodes : SortedEpisodes) (config : Config) (highest : Nat) :
    Nat → RemoteInfo → Nat → List MergedSeries → Option (List MergedSeries)
  | 0, _, _, _ => none
  | fuel + 1, info, offset, acc =>
    match info.direct_sequel with
    | none => some acc
    | some sequel =>
      match remote sequel.id with
      | none =>
        mergedSeasonWalk remote base_path episodes config highest fuel info offset
          (acc ++ [.Failed sequel.kind])
      | some info' =>
        let acc' := acc ++ [.Resolved (ResolvedSeries.new info' base_path episodes offset config)]
        if offset + info'.episodes > highest ∨ info'.direct_sequel = none then some acc'
        else
          mergedSeasonWalk remote base_path episodes config highest fuel info'
            (offset + info'.episodes) acc'

/-- `MergedSeries::resolve_merged_season` (split_series/mod.rs lines 248-293):
return unchanged when the base series' episode count already exceeds the
highest local episode number, otherwise walk the direct-sequel chain starting
with the base series' episode count as the running offset. -/
def MergedSeries.resolve_merged_season (fuel : Nat) (remote : Nat → Option RemoteInfo)
    (base_info : RemoteInfo) (base_path : SeriesPath) (episodes : SortedEpisodes)
    (config : Config) (results : List MergedSeries) : Option (List MergedSeries) :=
  let highest := episodes.highest_episode_number
  if base_info.episodes > highest then some results
  else mergedSeasonWalk remote base_path episodes config highest fuel base_info
    base_info.episodes results

/-- The category loop of `MergedSeries::resolve` (split_series/mod.rs lines
210-243): categories without a matching sequel are skipped; a season-kind
sequel is handled by the chain walk; for any other kind a failed lookup
records `Failed` and resolution continues, a successful one records a
`Resolved` series with offset zero. -/
def resolveLoop (fuel : Nat) (remote : Nat → Option RemoteInfo) (base_info : RemoteInfo)
    (base_path : SeriesPath) (config : Config) :
    CategorizedEpisodes → List MergedSeries → Option (List MergedSeries)
  | [], acc => some acc
  | (cat, eps) :: rest, acc =>
    match base_info.sequel_by_kind cat with
    | none => resolveLoop fuel remote base_info base_path config rest acc
    | some sequel =>
      if sequel.kind = SeriesKind.Season then
        match MergedSeries.resolve_merged_season fuel remote base_info base_path eps config acc with
        | none => none
        | some acc' => resolveLoop fuel remote base_info base_path config rest acc'
      else
        match remote sequel.id with
        | none => resolveLoop fuel remote base_info base_path config rest (acc ++ [.Failed sequel.kind])
        | some sequel_info =>
          resolveLoop fuel remote base_info base_path config rest
            (acc ++ [.Resolved (ResolvedSeries.new sequel_info base_path eps 0 config)])

/-- `MergedSeries::resolve` (split_series/mod.rs lines 196-246).  Modelled from
the spec for its input: the categorized local episodes are consumed as an
argument (spec §4.3's contract; the scanning collaborator that produces them,
`CategorizedEpisodes::parse`, is not part of the snapshot).  Fetch the base
series' metadata — the only failure of the resolution itself, modelled as
`.error ()` — return an empty result when it declares no sequels, and otherwise
run the category loop. -/
def MergedSeries.resolve (fuel : Nat) (remote : Nat → Option RemoteInfo) (base_id : Nat)
    (base_path : SeriesPath) (config : Config) (episodes : CategorizedEpisodes) :
    Option (Except Unit (List MergedSeries)) :=
  match remote base_id with
  | none => some (.error ())
  | some base_info =>
    if base_info.sequels.isEmpty then some (.ok [])
    else (resolveLoop fuel remote base_info base_path config episodes []).map .ok

/-- C5: applying `Episode::parse` with the default matcher to
`"[Group] Series Name - 01.mkv"` yields title `"Series Name"` and episode
number 1; on `"[Group]_Series_Name_-_01_[tag1][tag2].mkv"`, however — a format
the pattern's own doc comment lists as supported, which the claim says yields
the same pair — the default pattern has no match at all (after the digits `01`
the next characters are `_[`, and every tail alternative of the pattern wants
`(`, `[`, optionally preceded by whitespace only, or a literal video
extension), so parsing fails with `NoEpMatches`. -/
theorem c5_default_pattern_on_doc_formats :
    Episode.parse ⟨none⟩ (chars "[Group] Series Name - 01.mkv") =
      .ok ⟨chars "Series Name", 1⟩ ∧
    Episode.parse ⟨none⟩ (chars "[Group]_Series_Name_-_01_[tag1][tag2].mkv") =
      .error (.NoEpMatches (chars "[Group]_Series_Name_-_01_[tag1][tag2].mkv")) :=
  ⟨by rfl, by rfl⟩

/-- C8: for every pattern that, after placeholder substitution, lacks the
literal title named-capture marker, matcher construction fails with a
missing-group error naming `"title"` no matter what the regular-expression
compiler would do (it is never consulted); symmetrically, a substituted
pattern containing the title marker but lacking the episode marker fails
naming `"episode"`. -/
theorem c8_missing_group_before_compilation :
    ∀ (compile : List Ch → Option Rx) (pattern : List Ch),
    (containsSub (chars "(?P<title>") (substitutedPattern pattern) = false →
      episode_matcher_with_pattern compile pattern =
        .error (.MissingEpisodeMatcherGroup "title")) ∧
    (containsSub (chars "(?P<title>") (substitutedPattern pattern) = true →
      containsSub (chars "(?P<episode>") (substitutedPattern pattern) = false →
      episode_matcher_with_pattern compile pattern =
        .error (.MissingEpisodeMatcherGroup "episode")) := by
  intro compile pattern
  constructor
  · intro h
    simp [episode_matcher_with_pattern, EpisodeMatcher.from_pattern, h]
  · intro h1 h2
    simp [episode_matcher_with_pattern, EpisodeMatcher.from_pattern, h1, h2]

/-- Witness for C8 at the spec's own test vectors: a pattern without the title
placeholder fails naming `"title"`, one without the episode placeholder fails
naming `"episode"`, for a compiler that rejects everything. -/
theorem c8_missing_group_witness :
    episode_matcher_with_pattern (fun _ => none) (chars "(.+?) - {episode}") =
      .error (.MissingEpisodeMatcherGroup "title") ∧
    episode_matcher_with_pattern (fun _ => none) (chars "{title} - [0-9]+") =
      .error (.MissingEpisodeMatcherGroup "episode") :=
  ⟨(c8_missing_group_before_compilation (fun _ => none) (chars "(.+?) - {episode}")).1
      (by decide),
   (c8_missing_group_before_compilation (fun _ => none) (chars "{title} - [0-9]+")).2
      (by decide) (by decide)⟩

/-- C10: for every matcher and filename whose match produces an episode capture
that is a digit string with numeric value above `u32::MAX`, `Episode::parse`
returns the expected-episode-number error (the same error as for a non-numeric
capture) rather than wrapping the value. -/
theorem c10_episode_overflow_is_error :
    ∀ (matcher : EpisodeMatcher) (name : List Ch) (caps : Caps) (t e : List Ch),
    Rx.search matcher.get name = some caps →
    capsFind caps "title" = some t →
    capsFind caps "episode" = some e →
    (∀ c ∈ e, isDigitCh c = true) →
    4294967295 < digitsToNat e →
    Episode.parse matcher name = .error (.ExpectedEpNumber (trim t)) := by
  intro matcher name caps t e hsearch htitle hep hdig hval
  have hnone : parseU32 e = none := by
    cases e with
    | nil => simp [digitsToNat] at hval
    | cons c rest =>
      have hc : isDigitCh c = true := hdig c (List.mem_cons_self c rest)
      have hc43 : c ≠ 43 := by
        intro h
        rw [h] at hc
        simp [isDigitCh] at hc
      have hall : (c :: rest).all isDigitCh = true := List.all_eq_true.mpr hdig
      have hlt : ¬ digitsToNat (c :: rest) < 4294967296 := by omega
      simp [parseU32, List.head?, hc43, hall, hlt]
  simp only [Episode.parse, hsearch, htitle, hep, Option.bind, hnone]

/-- A simple custom matcher used by witnesses, the compiled form of
`(?P<title>.+?) - (?P<episode>\d+)`. -/
def simpleRx : Rx :=
  Rx.cat [Rx.group "title" (Rx.plusL (.cls .dot)), Rx.str (chars " - "),
    Rx.group "episode" (Rx.plusG (.cls .digit))]

/-- Witness for C10: the digit capture `5000000000` exceeds `u32::MAX`, so the
parse fails with the expected-episode-number error. -/
theorem c10_episode_overflow_witness :
    Episode.parse ⟨some simpleRx⟩ (chars "Foo - 5000000000") =
      .error (.ExpectedEpNumber (chars "Foo")) :=
  c10_episode_overflow_is_error ⟨some simpleRx⟩ (chars "Foo - 5000000000")
    [("episode", chars "5000000000"), ("title", chars "Foo")]
    (chars "Foo") (chars "5000000000")
    (by rfl) (by rfl) (by rfl) (by decide) (by decide)

/-- C1: for a base series with 12 episodes whose direct-sequel chain starts
with a 13-episode season (itself pointing at a further sequel), and any local
episode set whose highest number is 20, the season resolution produces exactly
one `Resolved` outcome — for the first sequel, with offset 12 — and neither
consults the remote about the second sequel (the `remote` function is
arbitrary away from id 2) nor produces an outcome for it, because the running
offset 12 + 13 = 25 exceeds 20. -/
theorem c1_chain_walk_arithmetic :
    ∀ (remote : Nat → Option RemoteInfo) (eps : SortedEpisodes) (path : SeriesPath)
      (config : Config) (fuel : Nat),
    remote 2 = some ⟨2, chars "Season 2", 13, [⟨3, .Season⟩]⟩ →
    eps.highest_episode_number = 20 →
    MergedSeries.resolve_merged_season (fuel + 1) remote
        ⟨1, chars "Base", 12, [⟨2, .Season⟩]⟩ path eps config [] =
      some [.Resolved (ResolvedSeries.new ⟨2, chars "Season 2", 13, [⟨3, .Season⟩]⟩
        path eps 12 config)] := by
  intro remote eps path config fuel hr hh
  unfold MergedSeries.resolve_merged_season
  rw [hh]
  norm_num
  unfold mergedSeasonWalk
  simp [RemoteInfo.direct_sequel, RemoteInfo.sequel_by_kind, hr]

/-- Witness for C1 at a concrete remote, episode set and fuel. -/
theorem c1_chain_walk_witness :
    MergedSeries.resolve_merged_season 1
        (fun n => if n = 2 then some ⟨2, chars "Season 2", 13, [⟨3, .Season⟩]⟩ else none)
        ⟨1, chars "Base", 12, [⟨2, .Season⟩]⟩ (chars "dir") [⟨20, chars "e20.mkv"⟩]
        ⟨chars "root"⟩ [] =
      some [.Resolved (ResolvedSeries.new ⟨2, chars "Season 2", 13, [⟨3, .Season⟩]⟩
        (chars "dir") [⟨20, chars "e20.mkv"⟩] 12 ⟨chars "root"⟩)] :=
  c1_chain_walk_arithmetic
    (fun n => if n = 2 then some ⟨2, chars "Season 2", 13, [⟨3, .Season⟩]⟩ else none)
    [⟨20, chars "e20.mkv"⟩] (chars "dir") ⟨chars "root"⟩ 0 (by rfl) (by rfl)

/-- C2: the claim says a failed intermediate direct-sequel lookup records
exactly one `Failed(kind)` outcome and stops the walk; in the code, however,
the failure branch's `continue` does not advance `info`, so the walk re-fetches
the same sequel forever, pushing one `Failed` entry per attempt: for a base
series (12 episodes, not above the local highest) whose direct sequel's lookup
always fails, the walk exhausts any amount of fuel without terminating. -/
theorem c2_failed_lookup_loops_forever :
    ∀ (fuel : Nat) (remote : Nat → Option RemoteInfo) (eps : SortedEpisodes)
      (path : SeriesPath) (config : Config) (acc : List MergedSeries),
    remote 2 = none →
    12 ≤ eps.highest_episode_number →
    MergedSeries.resolve_merged_season fuel remote
        ⟨1, chars "Base", 12, [⟨2, .Season⟩]⟩ path eps config acc = none := by
  intro fuel remote eps path config acc hr hh
  unfold MergedSeries.resolve_merged_season
  have h12 : ¬ (12 > eps.highest_episode_number) := by omega
  simp only [h12, if_false]
  clear h12
  induction fuel generalizing acc with
  | zero => rfl
  | succ n ih =>
    unfold mergedSeasonWalk
    simp [RemoteInfo.direct_sequel, RemoteInfo.sequel_by_kind, hr, ih]

/-- Witness for C2 at a concrete failing remote and fuel. -/
theorem c2_failed_lookup_witness :
    MergedSeries.resolve_merged_season 5 (fun _ => none)
        ⟨1, chars "Base", 12, [⟨2, .Season⟩]⟩ (chars "dir") [⟨20, chars "e20.mkv"⟩]
        ⟨chars "root"⟩ [] = none :=
  c2_failed_lookup_loops_forever 5 (fun _ => none) [⟨20, chars "e20.mkv"⟩]
    (chars "dir") ⟨chars "root"⟩ [] (by rfl) (by decide)

/-- The new-name format exactly as spec §4.4 words it: season title, `" - "`,
the two-digit zero-padded relative index, and the original extension preserved
with its leading dot, or the empty string if the source had none. -/
def specNewName (title : List Ch) (relative : Nat) (ext : Option (List Ch)) : List Ch :=
  title ++ chars " - " ++ pad2 relative ++
    (match ext with
     | none => []
     | some e => 46 :: e)

/-- The split-action builder as spec §4.4 states it: one action per real
episode number in the inclusive range `[offset+1, offset+episode_count]` that
is present in the local set, in ascending order of real number, with relative
index `real - offset`; absent numbers produce nothing. -/
def specSplitActions (info : RemoteInfo) (episodes : SortedEpisodes) (offset : Nat) :
    List SplitAction :=
  (List.range' (offset + 1) info.episodes).filterMap (fun realNum =>
    (episodes.find realNum).map (fun ep =>
      ⟨ep.filename, specNewName info.preferredTitle (realNum - offset)
        (fileExtension ep.filename)⟩))

/-- The action loop appends exactly the filter-mapped actions of the number
list to its accumulator. -/
theorem fromMergedLoop_eq (info : RemoteInfo) (eps : SortedEpisodes) (offset : Nat) :
    ∀ (nums : List Nat) (acc : List SplitAction),
    fromMergedLoop info eps offset nums acc =
      acc ++ nums.filterMap (fun r => (eps.find r).map
        (fun ep => ⟨ep.filename, splitNewName info r offset ep⟩)) := by
  intro nums
  induction nums with
  | nil => intro acc; simp [fromMergedLoop]
  | cons r rest ih =>
    intro acc
    unfold fromMergedLoop
    cases h : eps.find r with
    | none => simp [h, ih]
    | some ep => simp [h, ih]

/-- C3: within the u32 domain of the offsets, the split-action builder emits,
for each real episode number in `[offset+1, offset+episode_count]` present in
the local set and in ascending order, exactly one action renaming the original
file to `"<preferred title> - NN<ext>"` with `NN` the zero-padded relative
index and `<ext>` the original extension with its dot (or nothing); absent
numbers contribute nothing — that is, the builder agrees with the spec-side
description `specSplitActions`. -/
theorem c3_split_action_builder :
    ∀ (info : RemoteInfo) (episodes : SortedEpisodes) (offset : Nat),
    offset + info.episodes < 4294967296 →
    SplitAction.from_merged_seasons info episodes offset =
      specSplitActions info episodes offset := by
  intro info episodes offset hbound
  unfold SplitAction.from_merged_seasons specSplitActions
  rw [fromMergedLoop_eq]
  simp [splitNewName, specNewName]

/-- Witness for C3 at the spec's §8 vector: offset 12, a 13-episode season and
local episodes 13 and 14 only. -/
theorem c3_split_action_witness :
    SplitAction.from_merged_seasons ⟨7, chars "T", 13, []⟩
        [⟨13, chars "ep13.mkv"⟩, ⟨14, chars "ep14.mkv"⟩] 12 =
      specSplitActions ⟨7, chars "T", 13, []⟩
        [⟨13, chars "ep13.mkv"⟩, ⟨14, chars "ep14.mkv"⟩] 12 ∧
    specSplitActions ⟨7, chars "T", 13, []⟩
        [⟨13, chars "ep13.mkv"⟩, ⟨14, chars "ep14.mkv"⟩] 12 =
      [⟨chars "ep13.mkv", chars "T - 01.mkv"⟩, ⟨chars "ep14.mkv", chars "T - 02.mkv"⟩] :=
  ⟨c3_split_action_builder ⟨7, chars "T", 13, []⟩
      [⟨13, chars "ep13.mkv"⟩, ⟨14, chars "ep14.mkv"⟩] 12 (by decide),
   by rfl⟩

/-- After a successful run of the action loop, every path that existed before
still exists, and the destination path of every action exists. -/
theorem symlinkLoop_ok_paths (base out : List Ch) :
    ∀ (acts : List SplitAction) (fs fs' : FS),
    symlinkLoop base out acts fs = .ok fs' →
    (∀ p, p ∈ fs.paths → p ∈ fs'.paths) ∧
    (∀ a ∈ acts, joinPath out a.new_name ∈ fs'.paths) := by
  intro acts
  induction acts with
  | nil =>
    intro fs fs' h
    unfold symlinkLoop at h
    injection h with h
    subst h
    exact ⟨fun p hp => hp, by simp⟩
  | cons a rest ih =>
    intro fs fs' h
    unfold symlinkLoop at h
    by_cases hc : joinPath out a.new_name ∈ fs.paths
    · simp only [FS.symlink, if_pos hc] at h
      obtain ⟨mono, dsts⟩ := ih fs fs' h
      refine ⟨mono, ?_⟩
      intro b hb
      rcases List.mem_cons.mp hb with hba | hbr
      · subst hba; exact mono _ hc
      · exact dsts b hbr
    · by_cases hd : joinPath out a.new_name ∈ fs.denied
      · simp [FS.symlink, hc, hd] at h
      · simp only [FS.symlink, if_neg hc, if_neg hd] at h
        obtain ⟨mono, dsts⟩ := ih _ fs' h
        refine ⟨fun p hp => mono p (List.mem_cons_of_mem _ hp), ?_⟩
        intro b hb
        rcases List.mem_cons.mp hb with hba | hbr
        · subst hba; exact mono _ (List.mem_cons_self _ _)
        · exact dsts b hbr

/-- When every destination path already exists, the action loop succeeds and
leaves the filesystem untouched (every link hits the tolerated
`AlreadyExists`). -/
theorem symlinkLoop_all_exist (base out : List Ch) :
    ∀ (acts : List SplitAction) (fs : FS),
    (∀ a ∈ acts, joinPath out a.new_name ∈ fs.paths) →
    symlinkLoop base out acts fs = .ok fs := by
  intro acts
  induction acts with
  | nil => intro fs _; rfl
  | cons a rest ih =>
    intro fs h
    have ha : joinPath out a.new_name ∈ fs.paths := h a (List.mem_cons_self _ _)
    unfold symlinkLoop
    simp only [FS.symlink, if_pos ha]
    exact ih fs (fun b hb => h b (List.mem_cons_of_mem _ hb))

/-- The action loop processes a concatenation left part first. -/
theorem symlinkLoop_append (base out : List Ch) :
    ∀ (pre rest : List SplitAction) (fs : FS),
    symlinkLoop base out (pre ++ rest) fs =
      match symlinkLoop base out pre fs with
      | .ok mid => symlinkLoop base out rest mid
      | .error e => .error e := by
  intro pre
  induction pre with
  | nil => intro rest fs; rfl
  | cons a pre ih =>
    intro rest fs
    simp only [List.cons_append, symlinkLoop]
    cases hs : fs.symlink (joinPath base a.old_name) (joinPath out a.new_name) with
    | ok fs1 => simp only [hs]; exact ih rest fs1
    | error e =>
      cases e with
      | AlreadyExists => simp only [hs]; exact ih rest fs
      | PermissionDenied => simp only [hs]

/-- The directory-ensuring step yields a filesystem in which the directory
exists and every previously existing path still exists. -/
theorem ensureDir_spec (fs : FS) (p : List Ch) (fs1 : FS) :
    (if fs.pathExists p then some fs else fs.createDirAll p) = some fs1 →
    p ∈ fs1.paths ∧ ∀ q, q ∈ fs.paths → q ∈ fs1.paths := by
  intro h
  by_cases hp : fs.pathExists p
  · rw [if_pos hp] at h
    injection h with h
    subst h
    exact ⟨hp, fun q hq => hq⟩
  · rw [if_neg hp] at h
    unfold FS.createDirAll at h
    by_cases hd : p ∈ fs.denied
    · rw [if_pos hd] at h; cases h
    · rw [if_neg hd] at h
      injection h with h
      subst h
      exact ⟨List.mem_cons_self _ _, fun q hq => List.mem_cons_of_mem _ hq⟩

/-- C4: the split executor (a) succeeds without touching the filesystem when
there are no actions, (b) is idempotent — a successful run leaves a state on
which running again succeeds and changes nothing (every link target already
exists and is tolerated), so both runs end with the same links — and (c) a
link failure other than `AlreadyExists` fails the whole operation with the
source path, destination path and cause reported, independent of (and without
attempting) the actions after the failing one. -/
theorem c4_executor_idempotence_and_abort :
    (∀ (r : ResolvedSeries) (config : Config) (fs : FS),
      r.actions = [] → r.perform_split_actions config fs = .ok fs) ∧
    (∀ (r : ResolvedSeries) (config : Config) (fs fs' : FS),
      r.perform_split_actions config fs = .ok fs' →
      r.perform_split_actions config fs' = .ok fs') ∧
    (∀ (r : ResolvedSeries) (config : Config) (fs fsMid : FS)
      (pre : List SplitAction) (bad : SplitAction) (post : List SplitAction) (e : IoErrorKind),
      r.actions = pre ++ bad :: post →
      fs.pathExists (r.base_dir.absolute config) →
      fs.pathExists (r.out_dir.absolute config) →
      symlinkLoop (r.base_dir.absolute config) (r.out_dir.absolute config) pre fs = .ok fsMid →
      fsMid.symlink (joinPath (r.base_dir.absolute config) bad.old_name)
        (joinPath (r.out_dir.absolute config) bad.new_name) = .error e →
      e ≠ .AlreadyExists →
      r.perform_split_actions config fs =
        .error (.symlinkFailed (joinPath (r.base_dir.absolute config) bad.old_name)
          (joinPath (r.out_dir.absolute config) bad.new_name) e)) := by
  refine ⟨?_, ?_, ?_⟩
  · intro r config fs h
    unfold ResolvedSeries.perform_split_actions
    simp [h]
  · intro r config fs fs' h
    unfold ResolvedSeries.perform_split_actions at h ⊢
    by_cases hempty : r.actions.isEmpty
    · simp only [hempty, if_true]
    · rw [Bool.not_eq_true] at hempty
      simp only [hempty, Bool.false_eq_true, if_false] at h ⊢
      cases h1 : (if fs.pathExists (r.base_dir.absolute config) then some fs
          else fs.createDirAll (r.base_dir.absolute config)) with
      | none => simp only [h1] at h; exact Except.noConfusion h
      | some fs1 =>
        simp only [h1] at h
        cases h2 : (if fs1.pathExists (r.out_dir.absolute config) then some fs1
            else fs1.createDirAll (r.out_dir.absolute config)) with
        | none => simp only [h2] at h; exact Except.noConfusion h
        | some fs2 =>
          simp only [h2] at h
          obtain ⟨hbd1, mono1⟩ := ensureDir_spec fs _ fs1 h1
          obtain ⟨hod2, mono2⟩ := ensureDir_spec fs1 _ fs2 h2
          obtain ⟨mono3, dsts⟩ := symlinkLoop_ok_paths _ _ r.actions fs2 fs' h
          have hbd' : fs'.pathExists (r.base_dir.absolute config) :=
            mono3 _ (mono2 _ hbd1)
          have hod' : fs'.pathExists (r.out_dir.absolute config) := mono3 _ hod2
          simp only [if_pos hbd', if_pos hod']
          exact symlinkLoop_all_exist _ _ r.actions fs' dsts
  · intro r config fs fsMid pre bad post e hacts hbd hod hpre hbad hne
    unfold ResolvedSeries.perform_split_actions
    have hempty : r.actions.isEmpty = false := by
      rw [hacts]; cases pre <;> rfl
    simp only [hempty, Bool.false_eq_true, if_false, if_pos hbd, if_pos hod]
    rw [hacts, symlinkLoop_append, hpre]
    simp only [symlinkLoop]
    cases e with
    | AlreadyExists => exact absurd rfl hne
    | PermissionDenied => simp only [hbad]

/-- Witness for C4: a concrete empty split succeeds untouched; a concrete
one-action split run on an empty filesystem produces a state on which a second
run succeeds unchanged; and a denied link target aborts with the full report. -/
theorem c4_executor_witness :
    ResolvedSeries.perform_split_actions ⟨⟨9, chars "I", 0, []⟩, chars "b", chars "o", []⟩
        ⟨chars "r"⟩ ⟨[], [], []⟩ = .ok ⟨[], [], []⟩ ∧
    ResolvedSeries.perform_split_actions
        ⟨⟨9, chars "I", 1, []⟩, chars "b", chars "o", [⟨chars "x.mkv", chars "T - 01.mkv"⟩]⟩
        ⟨chars "r"⟩
        ⟨[chars "r/o/T - 01.mkv", chars "r/o", chars "r/b"],
         [(chars "r/o/T - 01.mkv", chars "r/b/x.mkv")], []⟩ =
      .ok ⟨[chars "r/o/T - 01.mkv", chars "r/o", chars "r/b"],
        [(chars "r/o/T - 01.mkv", chars "r/b/x.mkv")], []⟩ ∧
    ResolvedSeries.perform_split_actions
        ⟨⟨9, chars "I", 1, []⟩, chars "b", chars "o", [⟨chars "x.mkv", chars "T - 01.mkv"⟩]⟩
        ⟨chars "r"⟩ ⟨[chars "r/b", chars "r/o"], [], [chars "r/o/T - 01.mkv"]⟩ =
      .error (.symlinkFailed (chars "r/b/x.mkv") (chars "r/o/T - 01.mkv")
        .PermissionDenied) :=
  ⟨c4_executor_idempotence_and_abort.1 ⟨⟨9, chars "I", 0, []⟩, chars "b", chars "o", []⟩
      ⟨chars "r"⟩ ⟨[], [], []⟩ (by rfl),
   c4_executor_idempotence_and_abort.2.1
      ⟨⟨9, chars "I", 1, []⟩, chars "b", chars "o", [⟨chars "x.mkv", chars "T - 01.mkv"⟩]⟩
      ⟨chars "r"⟩ ⟨[], [], []⟩ _ (by rfl),
   c4_executor_idempotence_and_abort.2.2
      ⟨⟨9, chars "I", 1, []⟩, chars "b", chars "o", [⟨chars "x.mkv", chars "T - 01.mkv"⟩]⟩
      ⟨chars "r"⟩ ⟨[chars "r/b", chars "r/o"], [], [chars "r/o/T - 01.mkv"]⟩
      ⟨[chars "r/b", chars "r/o"], [], [chars "r/o/T - 01.mkv"]⟩
      [] ⟨chars "x.mkv", chars "T - 01.mkv"⟩ [] .PermissionDenied
      (by rfl) (by decide) (by decide) (by rfl) (by rfl) (by decide)⟩

/-- C7: in a single resolution pass over a concrete category map, the failed
movie-kind lookup degrades to a `Failed(movie)` entry while the season-kind
sequel in the same pass still resolves (offset 2 for a 2-episode base), the
result containing exactly one `Failed` and one `Resolved`; and in general,
whenever the base series' own metadata lookup succeeds, the resolution never
returns an error, whatever happens to the individual sequel lookups. -/
theorem c7_failure_isolation_across_categories :
    MergedSeries.resolve 1
        (fun n => if n = 1 then some ⟨1, chars "Base", 2, [⟨10, .Movie⟩, ⟨20, .Season⟩]⟩
          else if n = 20 then some ⟨20, chars "S2", 5, []⟩ else none)
        1 (chars "dir") ⟨chars "root"⟩
        [(.Movie, [⟨1, chars "m1.mkv"⟩]), (.Season, [⟨1, chars "e1.mkv"⟩, ⟨3, chars "e3.mkv"⟩])] =
      some (.ok [.Failed .Movie,
        .Resolved (ResolvedSeries.new ⟨20, chars "S2", 5, []⟩ (chars "dir")
          [⟨1, chars "e1.mkv"⟩, ⟨3, chars "e3.mkv"⟩] 2 ⟨chars "root"⟩)]) ∧
    ∀ (fuel : Nat) (remote : Nat → Option RemoteInfo) (base_id : Nat) (path : SeriesPath)
      (config : Config) (eps : CategorizedEpisodes) (bi : RemoteInfo) (e : Unit),
      remote base_id = some bi →
      MergedSeries.resolve fuel remote base_id path config eps ≠ some (.error e) := by
  constructor
  · rfl
  · intro fuel remote base_id path config eps bi e h
    unfold MergedSeries.resolve
    rw [h]
    by_cases hseq : bi.sequels.isEmpty
    · simp [hseq]
    · rw [Bool.not_eq_true] at hseq
      simp only [hseq, Bool.false_eq_true, if_false]
      cases ho : resolveLoop fuel remote bi path config eps [] with
      | none => simp [ho]
      | some l => simp [ho]

/-- Witness for C7's general clause at a concrete remote whose base lookup
succeeds. -/
theorem c7_failure_isolation_witness :
    MergedSeries.resolve 0 (fun _ => some ⟨1, [], 0, []⟩) 5 [] ⟨[]⟩ [] ≠
      some (.error ()) :=
  c7_failure_isolation_across_categories.2 0 (fun _ => some ⟨1, [], 0, []⟩) 5 [] ⟨[]⟩ []
    ⟨1, [], 0, []⟩ () (by rfl)

/-- C9: whenever the base series' episode count does not exceed the highest
local number, the chain walk fetches the first direct sequel and pushes a
`Resolved` entry for it even when no local episode number lies in its range
`[offset+1, offset+episode_count]` (here the chain ends at that sequel, so the
walk stops after the push); such a `ResolvedSeries` carries an empty action
list, and executing it succeeds without touching the filesystem. -/
theorem c9_resolved_entry_with_empty_actions :
    ∀ (fuel : Nat) (remote : Nat → Option RemoteInfo) (base s1 : RemoteInfo) (sq : Sequel)
      (path : SeriesPath) (eps : SortedEpisodes) (config : Config),
    base.episodes ≤ eps.highest_episode_number →
    base.direct_sequel = some sq →
    remote sq.id = some s1 →
    s1.direct_sequel = none →
    (∀ n, base.episodes + 1 ≤ n → n ≤ base.episodes + s1.episodes → eps.find n = none) →
    MergedSeries.resolve_merged_season (fuel + 1) remote base path eps config [] =
      some [.Resolved (ResolvedSeries.new s1 path eps base.episodes config)] ∧
    (ResolvedSeries.new s1 path eps base.episodes config).actions = [] ∧
    ∀ fs, (ResolvedSeries.new s1 path eps base.episodes config).perform_split_actions
      config fs = .ok fs := by
  intro fuel remote base s1 sq path eps config hle hds hr hs1 habsent
  have hactions : (ResolvedSeries.new s1 path eps base.episodes config).actions = [] := by
    show SplitAction.from_merged_seasons s1 eps base.episodes = []
    unfold SplitAction.from_merged_seasons
    rw [fromMergedLoop_eq]
    rw [List.nil_append, List.filterMap_eq_nil_iff]
    intro r hrmem
    rw [List.mem_range'_1] at hrmem
    rw [habsent r hrmem.1 (by omega)]
    rfl
  refine ⟨?_, hactions, ?_⟩
  · unfold MergedSeries.resolve_merged_season
    rw [if_neg (by omega)]
    unfold mergedSeasonWalk
    simp [hds, hr, hs1]
  · intro fs
    unfold ResolvedSeries.perform_split_actions
    simp [hactions]

/-- Witness for C9: a one-episode base with a one-episode terminal sequel and
only episode 1 present locally. -/
theorem c9_resolved_entry_witness :
    MergedSeries.resolve_merged_season 1
        (fun n => if n = 2 then some ⟨2, chars "S", 1, []⟩ else none)
        ⟨1, chars "B", 1, [⟨2, .Season⟩]⟩ (chars "dir") [⟨1, chars "e1.mkv"⟩]
        ⟨chars "root"⟩ [] =
      some [.Resolved (ResolvedSeries.new ⟨2, chars "S", 1, []⟩ (chars "dir")
        [⟨1, chars "e1.mkv"⟩] 1 ⟨chars "root"⟩)] ∧
    (ResolvedSeries.new ⟨2, chars "S", 1, []⟩ (chars "dir") [⟨1, chars "e1.mkv"⟩] 1
      ⟨chars "root"⟩).actions = [] ∧
    (ResolvedSeries.new ⟨2, chars "S", 1, []⟩ (chars "dir") [⟨1, chars "e1.mkv"⟩] 1
      ⟨chars "root"⟩).perform_split_actions ⟨chars "root"⟩ ⟨[], [], []⟩ = .ok ⟨[], [], []⟩ :=
  have h := c9_resolved_entry_with_empty_actions 0
    (fun n => if n = 2 then some ⟨2, chars "S", 1, []⟩ else none)
    ⟨1, chars "B", 1, [⟨2, .Season⟩]⟩ ⟨2, chars "S", 1, []⟩ ⟨2, .Season⟩
    (chars "dir") [⟨1, chars "e1.mkv"⟩] ⟨chars "root"⟩
    (by decide) (by rfl) (by rfl) (by rfl)
    (by
      intro n h1 h2
      have hn : n = 2 := le_antisymm h2 h1
      subst hn
      rfl)
  ⟨h.1, h.2.1, h.2.2 ⟨[], [], []⟩⟩

/-- Membership through a map insertion: the new binding or an old one. -/
theorem insertPath_mem (m : List (Nat × List Ch)) (k : Nat) (v : List Ch) :
    ∀ q ∈ insertPath m k v, q = (k, v) ∨ q ∈ m := by
  intro q hq
  rcases List.mem_cons.mp hq with h | h
  · exact Or.inl h
  · exact Or.inr (List.mem_of_mem_filter h)

/-- The entry loop under a uniform title: when every non-skipped entry parses
to title `t` and the running title is either unset or already `t`, the loop
succeeds; the resulting title is forced to `t` as soon as one non-skipped
entry exists, and every binding of the resulting map is either inherited or
the file name of some non-skipped entry. -/
theorem scanEntries_spec (matcher : EpisodeMatcher) (t : List Ch) :
    ∀ (entries : List DirEntry) (title? : Option (List Ch)) (paths : List (Nat × List Ch)),
    (∀ e ∈ entries, skipEntry e = false →
      ∃ ep, Episode.parse matcher e.fname = .ok ep ∧ ep.name = t) →
    (title? = none ∨ title? = some t) →
    ∃ title2 paths2,
      scanEntries matcher title? paths entries = .ok (title2, paths2) ∧
      (title2 = title? ∨ title2 = some t) ∧
      ((∃ e ∈ entries, skipEntry e = false) → title2 = some t) ∧
      (∀ q ∈ paths2, q ∈ paths ∨ ∃ e ∈ entries, skipEntry e = false ∧ q.2 = e.fname) := by
  intro entries
  induction entries with
  | nil =>
    intro title? paths _ _
    refine ⟨title?, paths, rfl, Or.inl rfl, ?_, fun q hq => Or.inl hq⟩
    rintro ⟨e, he, _⟩
    exact absurd he (List.not_mem_nil e)
  | cons e rest ih =>
    intro title? paths hparse htitle
    have hrest : ∀ e' ∈ rest, skipEntry e' = false →
        ∃ ep, Episode.parse matcher e'.fname = .ok ep ∧ ep.name = t :=
      fun e' he' => hparse e' (List.mem_cons_of_mem e he')
    by_cases hskip : skipEntry e
    · obtain ⟨t2, p2, heq, ht2, hforce, hq⟩ := ih title? paths hrest htitle
      refine ⟨t2, p2, ?_, ht2, ?_, ?_⟩
      · simp only [scanEntries, hskip, if_true]
        exact heq
      · rintro ⟨e', he', hns⟩
        rcases List.mem_cons.mp he' with rfl | hmem
        · rw [hskip] at hns; cases hns
        · exact hforce ⟨e', hmem, hns⟩
      · intro q hq2
        rcases hq q hq2 with h | ⟨e', he', hns, hfn⟩
        · exact Or.inl h
        · exact Or.inr ⟨e', List.mem_cons_of_mem e he', hns, hfn⟩
    · rw [Bool.not_eq_true] at hskip
      obtain ⟨ep, hep, hname⟩ := hparse e (List.mem_cons_self e rest) hskip
      have hlift : ∀ q ∈ insertPath paths ep.num e.fname,
          q ∈ paths ∨ ∃ e' ∈ e :: rest, skipEntry e' = false ∧ q.2 = e'.fname := by
        intro q hq2
        rcases insertPath_mem paths ep.num e.fname q hq2 with rfl | h
        · exact Or.inr ⟨e, List.mem_cons_self e rest, hskip, rfl⟩
        · exact Or.inl h
      rcases htitle with rfl | rfl
      · obtain ⟨t2, p2, heq, ht2, _, hq⟩ :=
          ih (some ep.name) (insertPath paths ep.num e.fname) hrest (Or.inr (by rw [hname]))
        have ht2' : t2 = some t := by
          rcases ht2 with h | h
          · rw [h, hname]
          · exact h
        refine ⟨t2, p2, ?_, Or.inr ht2', fun _ => ht2', ?_⟩
        · simp only [scanEntries, hskip, Bool.false_eq_true, if_false, hep]
          exact heq
        · intro q hq2
          rcases hq q hq2 with h | ⟨e', he', hns, hfn⟩
          · exact hlift q h
          · exact Or.inr ⟨e', List.mem_cons_of_mem e he', hns, hfn⟩
      · obtain ⟨t2, p2, heq, ht2, _, hq⟩ :=
          ih (some t) (insertPath paths ep.num e.fname) hrest (Or.inr rfl)
        have ht2' : t2 = some t := by rcases ht2 with h | h <;> exact h
        refine ⟨t2, p2, ?_, Or.inr ht2', fun _ => ht2', ?_⟩
        · simp only [scanEntries, hskip, Bool.false_eq_true, if_false, hep]
          rw [if_pos hname.symm]
          exact heq
        · intro q hq2
          rcases hq q hq2 with h | ⟨e', he', hns, hfn⟩
          · exact hlift q h
          · exact Or.inr ⟨e', List.mem_cons_of_mem e he', hns, hfn⟩

/-- C6: (a) once an expected title is set, a non-skipped entry that parses to a
different title makes the scan fail with a title-conflict error carrying both
the expected and the conflicting title; (b) an entry that is a subdirectory or
carries the `.part` marker is passed over without being parsed (the scan result
is that of the remaining entries, for every matcher); (c) a directory whose
non-skipped entries all parse to one title scans successfully to that title,
and every binding of the mapping comes from a non-skipped entry — in
particular the partial file contributes nothing. -/
theorem c6_single_title_and_part_exclusion :
    (∀ (matcher : EpisodeMatcher) (t : List Ch) (paths : List (Nat × List Ch))
      (e : DirEntry) (rest : List DirEntry) (ep : Episode),
      skipEntry e = false →
      Episode.parse matcher e.fname = .ok ep →
      ep.name ≠ t →
      scanEntries matcher (some t) paths (e :: rest) =
        .error (.MultipleTitles t ep.name)) ∧
    (∀ (matcher : EpisodeMatcher) (title? : Option (List Ch))
      (paths : List (Nat × List Ch)) (e : DirEntry) (rest : List DirEntry),
      skipEntry e = true →
      scanEntries matcher title? paths (e :: rest) = scanEntries matcher title? paths rest) ∧
    (∀ (matcher : EpisodeMatcher) (dir : List Ch) (entries : List DirEntry) (t : List Ch),
      (∀ e ∈ entries, skipEntry e = false →
        ∃ ep, Episode.parse matcher e.fname = .ok ep ∧ ep.name = t) →
      (∃ e ∈ entries, skipEntry e = false) →
      ∃ paths, EpisodeList.parse matcher dir entries = .ok ⟨t, paths⟩ ∧
        ∀ q ∈ paths, ∃ e ∈ entries, skipEntry e = false ∧ q.2 = e.fname) := by
  refine ⟨?_, ?_, ?_⟩
  · intro matcher t paths e rest ep hskip hep hne
    simp only [scanEntries, hskip, Bool.false_eq_true, if_false, hep]
    rw [if_neg (Ne.symm hne)]
  · intro matcher title? paths e rest hskip
    simp only [scanEntries, hskip, if_true]
  · intro matcher dir entries t hparse hex
    obtain ⟨t2, p2, heq, _, hforce, hq⟩ := scanEntries_spec matcher t entries none [] hparse (Or.inl rfl)
    rw [hforce hex] at heq
    refine ⟨p2, ?_, ?_⟩
    · unfold EpisodeList.parse
      rw [heq]
    · intro q hq2
      rcases hq q hq2 with h | h
      · exact absurd h (List.not_mem_nil q)
      · exact h

/-- Witness for C6: a conflicting title errors with both titles, a `.part`
entry is skipped, and a directory of one title plus a partial file scans to
that title with the partial file absent from the mapping. -/
theorem c6_single_title_witness :
    scanEntries ⟨some simpleRx⟩ (some (chars "Baz")) []
        [⟨chars "Bar - 01.mkv", false⟩] =
      .error (.MultipleTitles (chars "Baz") (chars "Bar")) ∧
    scanEntries ⟨some simpleRx⟩ (some (chars "Baz")) [] [⟨chars "x.part", false⟩] =
      scanEntries ⟨some simpleRx⟩ (some (chars "Baz")) [] [] ∧
    ∃ paths,
      EpisodeList.parse ⟨some simpleRx⟩ (chars "d")
          [⟨chars "Bar - 01.mkv", false⟩, ⟨chars "Bar - 02.mkv.part", false⟩] =
        .ok ⟨chars "Bar", paths⟩ ∧
      ∀ q ∈ paths, ∃ e ∈ [⟨chars "Bar - 01.mkv", false⟩,
        (⟨chars "Bar - 02.mkv.part", false⟩ : DirEntry)],
        skipEntry e = false ∧ q.2 = e.fname :=
  ⟨c6_single_title_and_part_exclusion.1 ⟨some simpleRx⟩ (chars "Baz") []
      ⟨chars "Bar - 01.mkv", false⟩ [] ⟨chars "Bar", 1⟩ (by rfl) (by rfl) (by decide),
   c6_single_title_and_part_exclusion.2.1 ⟨some simpleRx⟩ (some (chars "Baz")) []
      ⟨chars "x.part", false⟩ [] (by rfl),
   c6_single_title_and_part_exclusion.2.2 ⟨some simpleRx⟩ (chars "d")
      [⟨chars "Bar - 01.mkv", false⟩, ⟨chars "Bar - 02.mkv.part", false⟩] (chars "Bar")
      (by
        intro e he hns
        rcases List.mem_cons.mp he with rfl | he2
        · exact ⟨⟨chars "Bar", 1⟩, by rfl, by rfl⟩
        · rcases List.mem_cons.mp he2 with rfl | he3
          · exact absurd hns (by decide)
          · exact absurd he3 (List.not_mem_nil e))
      ⟨⟨chars "Bar - 01.mkv", false⟩, List.mem_cons_self _ _, by rfl⟩⟩
